import Mathlib

/-!
Shallow embedding of the geometry core of `bjia56/harfbuzz-wasm-examples`
(files `src/gulzar/src/dist.rs` and `src/nastaliq/src/glyph.rs`).

Modelling conventions:
* `f32`/`f64` values are idealized as real numbers (`ℝ`); the `as f32` /
  `as f64` casts in the source become the identity.  A separate small model
  (`F64`, further below) keeps NaN explicit for the claims about
  floating-point comparison fallbacks.
* kurbo collaborator types (`Point`, `Line`, `QuadBez`, `CubicBez`,
  `PathSeg`, `Rect`) are embedded with their documented/actual semantics;
  kurbo's numeric routines that the repository merely calls
  (`QuadBez::nearest`, `PathSeg::min_dist`) are modelled from their
  documented meaning (true minimum over the parameter range), and
  `Line::nearest` from its closed form (clamped projection).
* A `BezPath` is modelled by its segment list (the source only consumes
  paths through `segments()`).
* The host diagnostic channel `debug(...)` is modelled by the oracle
  dispatch returning the emitted messages alongside the distance.
-/

namespace Gulzar

/-- kurbo `Point`: a 2D coordinate (f64 components idealized as reals). -/
structure Point where
  x : ℝ
  y : ℝ

/-- kurbo `Vec2::hypot2` of the difference, i.e. squared Euclidean distance. -/
def Point.distance_sq (p q : Point) : ℝ :=
  (p.x - q.x) ^ 2 + (p.y - q.y) ^ 2

/-- kurbo `Point::distance`: Euclidean distance (hypot of the difference). -/
noncomputable def Point.distance (p q : Point) : ℝ :=
  Real.sqrt (Point.distance_sq p q)

/-- Translate a point by `(dx, dy)`; the effect of `Affine::translate`. -/
def Point.translate (dx dy : ℝ) (p : Point) : Point :=
  ⟨p.x + dx, p.y + dy⟩

/-- kurbo `Line`: a line segment given by its two endpoints. -/
structure Line where
  p0 : Point
  p1 : Point

/-- kurbo `Line::eval`: linear interpolation `p0.lerp(p1, t)`. -/
def Line.eval (l : Line) (t : ℝ) : Point :=
  ⟨l.p0.x + t * (l.p1.x - l.p0.x), l.p0.y + t * (l.p1.y - l.p0.y)⟩

/-- kurbo `QuadBez`: a quadratic Bezier with control point `p1`. -/
structure QuadBez where
  p0 : Point
  p1 : Point
  p2 : Point

/-- kurbo `QuadBez::eval`: the quadratic Bernstein form
`(1-t)^2 p0 + 2 t (1-t) p1 + t^2 p2`. -/
def QuadBez.eval (q : QuadBez) (t : ℝ) : Point :=
  ⟨(1 - t) ^ 2 * q.p0.x + 2 * t * (1 - t) * q.p1.x + t ^ 2 * q.p2.x,
   (1 - t) ^ 2 * q.p0.y + 2 * t * (1 - t) * q.p1.y + t ^ 2 * q.p2.y⟩

/-- kurbo `CubicBez`: a cubic Bezier (never produced by this system, but
present in kurbo's `PathSeg` and hence reachable by malformed input). -/
structure CubicBez where
  p0 : Point
  p1 : Point
  p2 : Point
  p3 : Point

/-- kurbo `CubicBez::eval`: the cubic Bernstein form. -/
def CubicBez.eval (c : CubicBez) (t : ℝ) : Point :=
  ⟨(1 - t) ^ 3 * c.p0.x + 3 * t * (1 - t) ^ 2 * c.p1.x
      + 3 * t ^ 2 * (1 - t) * c.p2.x + t ^ 3 * c.p3.x,
   (1 - t) ^ 3 * c.p0.y + 3 * t * (1 - t) ^ 2 * c.p1.y
      + 3 * t ^ 2 * (1 - t) * c.p2.y + t ^ 3 * c.p3.y⟩

/-- kurbo `PathSeg`: tagged union of line, quadratic and cubic segments. -/
inductive PathSeg where
  | line (l : Line)
  | quad (q : QuadBez)
  | cubic (c : CubicBez)

/-- kurbo `PathSeg::eval`, dispatching on the segment kind. -/
noncomputable def PathSeg.eval (s : PathSeg) (t : ℝ) : Point :=
  match s with
  | .line l => l.eval t
  | .quad q => q.eval t
  | .cubic c => c.eval t

/-- Whether a segment is the cubic variant (the variant not covered by the
oracle's dispatch). -/
def PathSeg.isCubic : PathSeg → Bool
  | .cubic _ => true
  | _ => false

/-- A `BezPath` as consumed by `dist.rs`: the source only ever iterates the
path through `segments()`, so a path is modelled by that segment list. -/
abbrev BezPath := List PathSeg

/-- Translate every point of a segment by `(dx, dy)` (`apply_affine` with a
pure translation). -/
def translateSeg (dx dy : ℝ) : PathSeg → PathSeg
  | .line l => .line ⟨l.p0.translate dx dy, l.p1.translate dx dy⟩
  | .quad q => .quad ⟨q.p0.translate dx dy, q.p1.translate dx dy, q.p2.translate dx dy⟩
  | .cubic c => .cubic ⟨c.p0.translate dx dy, c.p1.translate dx dy,
      c.p2.translate dx dy, c.p3.translate dx dy⟩

/-- `rpath.apply_affine(Affine::translate((dx, dy)))` on a whole path. -/
def translatePath (dx dy : ℝ) (p : BezPath) : BezPath :=
  p.map (translateSeg dx dy)

/-- Rust `Iterator::min_by` with an explicit comparator: `reduce` with
`cmp::min_by`, which keeps the accumulator unless the comparator says it is
strictly `Greater` than the next element. -/
def rustMinBy {α : Type} (cmp : α → α → Ordering) : List α → Option α
  | [] => none
  | x :: xs => some (xs.foldl (fun acc y => if cmp acc y = Ordering.gt then y else acc) x)

/-- The three representative points `vec![s.eval(0.0), s.eval(0.5), s.eval(1.0)]`
sampled per segment in `min_distance_bezpath` (dist.rs lines 74 and 76). -/
noncomputable def samples (s : PathSeg) : List Point :=
  [s.eval 0, s.eval 0.5, s.eval 1]

/-- The coarse sampled distance of `min_distance_bezpath` (dist.rs 77-82):
`p1.iter().zip(p2.iter()).map(|(a, b)| a.distance(*b)).min_by(...).unwrap()`.
Note the `zip`: only index-matched sample points are compared.  Over NaN-free
reals the comparator `a.partial_cmp(b).unwrap_or(Ordering::Less)` is the total
order comparison, embedded as `compare`.  The `unwrap()` never panics because
the zipped list has three elements; the `getD 0` default is unreachable. -/
noncomputable def sampledDist (s1 s2 : PathSeg) : ℝ :=
  (rustMinBy compare (List.zipWith Point.distance (samples s1) (samples s2))).getD 0

/-- One step of the best-pair tracking in `min_distance_bezpath`
(dist.rs 83-88): keep the current best only when the new sampled distance is
strictly greater (`if dist > best { continue; }`); otherwise (strictly
smaller or tied) replace it. -/
noncomputable def bestPairStep (bp : Option (ℝ × PathSeg × PathSeg)) (d : ℝ)
    (s1 s2 : PathSeg) : Option (ℝ × PathSeg × PathSeg) :=
  match bp with
  | some (best, t1, t2) => if best < d then some (best, t1, t2) else some (d, s1, s2)
  | none => some (d, s1, s2)

/-- The nested best-pair selection loop of `min_distance_bezpath`
(dist.rs 72-90): fold `bestPairStep` over all segment pairs, outer loop on
`one`, inner loop on `other`. -/
noncomputable def bestPair (one other : BezPath) : Option (ℝ × PathSeg × PathSeg) :=
  one.foldl (fun bp s1 =>
    other.foldl (fun bp2 s2 => bestPairStep bp2 (sampledDist s1 s2) s1 s2) bp) none

/-- kurbo `Line::nearest(p, _accuracy).distance_sq`: squared distance from
`p` to the segment, via the projection of `p` on the segment clamped to the
parameter range `[0, 1]` (modelled from the kurbo collaborator's closed
form; the accuracy argument is unused by kurbo for lines). -/
noncomputable def Line.nearest_distance_sq (l : Line) (p : Point) : ℝ :=
  let dx := l.p1.x - l.p0.x
  let dy := l.p1.y - l.p0.y
  let dotp := dx * (p.x - l.p0.x) + dy * (p.y - l.p0.y)
  let d_squared := dx * dx + dy * dy
  if dotp ≤ 0 then Point.distance_sq p l.p0
  else if d_squared ≤ dotp then Point.distance_sq p l.p1
  else Point.distance_sq p (l.eval (dotp / d_squared))

/-- kurbo `QuadBez::nearest(p, accuracy).distance_sq`, modelled from the
collaborator's documented meaning: the least squared distance from `p` to a
point of the curve over the parameter range `[0, 1]`. -/
noncomputable def QuadBez.nearest_distance_sq (q : QuadBez) (p : Point) : ℝ :=
  sInf {d : ℝ | ∃ t ∈ Set.Icc (0 : ℝ) 1, d = Point.distance_sq p (q.eval t)}

/-- dist.rs 108-114 `line_line_dist`: square root of the minimum of the four
endpoint-to-segment squared distances. -/
noncomputable def line_line_dist (l1 l2 : Line) : ℝ :=
  let a := l1.nearest_distance_sq l2.p0
  let b := l1.nearest_distance_sq l2.p1
  let c := l2.nearest_distance_sq l1.p0
  let d := l2.nearest_distance_sq l1.p1
  Real.sqrt (min (min (min a b) c) d)

/-- The value `f64::MAX`. -/
noncomputable def f64MAX : ℝ := (2 ^ 53 - 1) * 2 ^ 971

/-- dist.rs 116-123 `line_curve_dist`: sample the line at
`[0.0, 0.2, 0.4, 0.6, 0.8, 0.99]`, take the least squared distance to the
quad (`reduce(|a, b| a.min(b)).unwrap_or(f64::MAX)`), and take its root. -/
noncomputable def line_curve_dist (l1 : Line) (c1 : QuadBez) : ℝ :=
  let ts : List ℝ := [0, 0.2, 0.4, 0.6, 0.8, 0.99]
  Real.sqrt
    (match ts.map (fun x => c1.nearest_distance_sq (l1.eval x)) with
     | [] => f64MAX
     | v :: vs => vs.foldl min v)

/-- kurbo `PathSeg::min_dist(other, accuracy).distance`, modelled from the
collaborator's documented meaning: the least distance between points of the
two segments over their parameter ranges (the accuracy argument of the
numeric routine is dropped by the model). -/
noncomputable def pathSegMinDist (s1 s2 : PathSeg) : ℝ :=
  sInf {d : ℝ | ∃ t ∈ Set.Icc (0 : ℝ) 1, ∃ u ∈ Set.Icc (0 : ℝ) 1,
    d = Point.distance (s1.eval t) (s2.eval u)}

/-- The refinement dispatch of `min_distance_bezpath` (dist.rs 93-102): match
on the chosen segment pair; the catch-all case calls `debug("Unusual
configuration")` and yields `0.0`.  The second component records the
diagnostics emitted through the host `debug` channel. -/
noncomputable def segPairRefine (s1 s2 : PathSeg) : ℝ × List String :=
  match s1, s2 with
  | .line l1, .line l2 => (line_line_dist l1 l2, [])
  | .line l1, .quad c2 => (line_curve_dist l1 c2, [])
  | .quad c1, .line l2 => (line_curve_dist l2 c1, [])
  | .quad c1, .quad c2 => (pathSegMinDist (.quad c1) (.quad c2), [])
  | _, _ => (0, ["Unusual configuration"])

/-- dist.rs 70-106 `min_distance_bezpath`: pick the best segment pair by
coarse sampling, then refine it with the oracle dispatch; `f64::MAX` when
either path has no segments. -/
noncomputable def min_distance_bezpath (one other : BezPath) : ℝ :=
  match bestPair one other with
  | some (_, s1, s2) => (segPairRefine s1 s2).1
  | none => f64MAX

/-- One comparison step of `path_distance` (dist.rs 59-64):
`if min_distance.is_none() || d < min_distance.unwrap() { min_distance = Some(d) }`. -/
noncomputable def pdStep (acc : Option ℝ) (d : ℝ) : Option ℝ :=
  match acc with
  | none => some d
  | some m => if d < m then some d else some m

/-- dist.rs 53-68 `path_distance`: fold the pairwise `min_distance_bezpath`
values over all contour pairs (outer loop on `left_paths`, inner loop on
`right_paths`); the final `as f32` cast is the identity in the real model. -/
noncomputable def path_distance (left_paths right_paths : List BezPath) : Option ℝ :=
  left_paths.foldl (fun acc p1 =>
    right_paths.foldl (fun acc2 p2 => pdStep acc2 (min_distance_bezpath p1 p2)) acc) none

/-- The `while` loop of `_determine_kern` (dist.rs 26-49), with the remaining
iteration budget `fuel` standing for `10 - iterations` (the loop guard
`iterations < 10` is `fuel ≠ 0`).  State: the working copy of `right_paths`,
the accumulated `kern`, and the last measured `min_distance`. -/
noncomputable def kernLoopAux (left_paths : List BezPath) (target_distance minimum_possible : ℝ) :
    ℕ → List BezPath → ℝ → ℝ → ℝ
  | 0, _, kern, _ => kern
  | fuel + 1, right_paths, kern, min_distance =>
    if |target_distance - min_distance| > 10 then
      match path_distance left_paths right_paths with
      | some md =>
        let this_kern := target_distance - md
        let kern2 := kern + this_kern
        if kern2 < minimum_possible then minimum_possible
        else kernLoopAux left_paths target_distance minimum_possible fuel
          (right_paths.map (translatePath this_kern 0)) kern2 md
      | none => minimum_possible
    else kern

/-- dist.rs 5-51 `_determine_kern`: `minimum_possible = -1000 * scale_factor`
(the `max_tuck` refinement is commented out in the source and the parameter
is unused), `kern = 0`, `min_distance = -9999`, at most 10 iterations. -/
noncomputable def _determine_kern (left_paths right_paths : List BezPath)
    (target_distance max_tuck scale_factor : ℝ) : ℝ :=
  kernLoopAux left_paths target_distance (-1000 * scale_factor) 10 right_paths 0 (-9999)

/-- The number of completed iterations of the `_determine_kern` loop (the
final value of the source's `iterations` counter, which is incremented only
at dist.rs line 45, after a full loop body): the same recursion as
`kernLoopAux` instrumented to count instead of returning the kern. -/
noncomputable def kernLoopIters (left_paths : List BezPath) (target_distance minimum_possible : ℝ) :
    ℕ → List BezPath → ℝ → ℝ → ℕ
  | 0, _, _, _ => 0
  | fuel + 1, right_paths, kern, min_distance =>
    if |target_distance - min_distance| > 10 then
      match path_distance left_paths right_paths with
      | some md =>
        let this_kern := target_distance - md
        let kern2 := kern + this_kern
        if kern2 < minimum_possible then 0
        else 1 + kernLoopIters left_paths target_distance minimum_possible fuel
          (right_paths.map (translatePath this_kern 0)) kern2 md
      | none => 0
    else 0

/-- A model of `f64` candidate values that keeps NaN explicit (finite values
idealized as rationals), for the claims about the floating-point comparison
fallbacks of dist.rs.  Infinities and signed zero play no role in those
comparisons and are not distinguished. -/
inductive F64 where
  | nan : F64
  | fin : ℚ → F64
deriving DecidableEq

/-- Rust `f64::partial_cmp`: `None` whenever either operand is NaN. -/
def F64.pcmp : F64 → F64 → Option Ordering
  | .fin a, .fin b => some (compare a b)
  | _, _ => none

/-- The comparator closure of dist.rs line 81:
`|a, b| a.partial_cmp(b).unwrap_or(Ordering::Less)`. -/
def F64.cmpOrLess (a b : F64) : Ordering := (F64.pcmp a b).getD Ordering.lt

/-- Rust `a > b` on `f64`: true exactly when `partial_cmp` is `Greater`
(always false when either side is NaN). -/
def F64.gtb (a b : F64) : Bool := F64.pcmp a b = some Ordering.gt

/-- Rust `a < b` on `f64`: true exactly when `partial_cmp` is `Less`
(always false when either side is NaN). -/
def F64.ltb (a b : F64) : Bool := F64.pcmp a b = some Ordering.lt

/-- Whether an `F64` is a (non-NaN) finite value. -/
def F64.isFin : F64 → Bool
  | .nan => false
  | .fin _ => true

/-- The `min_by` of dist.rs line 81 over `F64` candidates: Rust
`Iterator::min_by` with the `unwrap_or(Ordering::Less)` comparator. -/
def sampleMinF (l : List F64) : Option F64 := rustMinBy F64.cmpOrLess l

/-- The best-candidate comparison of dist.rs 83-88 restricted to the distance
component, over `F64`: keep the current best only when the new candidate
compares strictly greater (`if dist > best { continue; }`), else replace. -/
def bestStepF (bp : Option F64) (d : F64) : Option F64 :=
  match bp with
  | some best => if F64.gtb d best then some best else some d
  | none => some d

/-- The full best-candidate sweep of dist.rs 83-88 over a candidate list. -/
def bestFoldF (l : List F64) : Option F64 := l.foldl bestStepF none

/-- The comparison of dist.rs 59-64 over `F64`:
`if min_distance.is_none() || d < min_distance.unwrap() { ... Some(d) }`. -/
def pdStepF (acc : Option F64) (d : F64) : Option F64 :=
  match acc with
  | none => some d
  | some m => if F64.ltb d m then some d else some m

/-- The full candidate sweep of `path_distance` (dist.rs 55-66) over `F64`. -/
def pdFoldF (l : List F64) : Option F64 := l.foldl pdStepF none

/-- Modelled from the spec: the minimum pairwise point-distance over all
point pairs drawn from the two three-point sample sets (nine pairs), as the
claim about the coarse sampled distance reads it.  To be compared with
`sampledDist`, which is translated from the source. -/
noncomputable def specAllPairsSampledDist (s1 s2 : PathSeg) : ℝ :=
  (rustMinBy compare
    ((samples s1).flatMap (fun a => (samples s2).map (fun b => a.distance b)))).getD 0

/-- hb `hb_glyph_extents_t` as used by `glyph.rs`: design-space bounding
metrics (i32 fields modelled as integers). -/
structure GlyphExtents where
  x_bearing : ℤ
  y_bearing : ℤ
  width : ℤ
  height : ℤ

/-- The font collaborator consumed by `glyph.rs`: per-codepoint extents and
the `(x_scale, y_scale)` pair. -/
structure Font where
  extents : ℕ → GlyphExtents
  scale : ℤ × ℤ

/-- `font.get_glyph_extents(codepoint)`. -/
def Font.get_glyph_extents (f : Font) (cp : ℕ) : GlyphExtents := f.extents cp

/-- `font.get_scale()`. -/
def Font.get_scale (f : Font) : ℤ × ℤ := f.scale

/-- kurbo `Rect`: an axis-aligned rectangle given by two corners. -/
structure Rect where
  x0 : ℝ
  y0 : ℝ
  x1 : ℝ
  y1 : ℝ

/-- kurbo `Rect::from_points`: the rectangle spanned by two points, with
nonnegative width and height (the constructor sorts the coordinates). -/
def Rect.from_points (p q : Point) : Rect :=
  ⟨min p.x q.x, min p.y q.y, max p.x q.x, max p.y q.y⟩

/-- kurbo `Rect::width`. -/
def Rect.width (r : Rect) : ℝ := r.x1 - r.x0

/-- kurbo `Rect::height`. -/
def Rect.height (r : Rect) : ℝ := r.y1 - r.y0

/-- kurbo `Rect::area`: width times height. -/
def Rect.area (r : Rect) : ℝ := r.width * r.height

/-- kurbo `Rect::intersect`: componentwise max/min of the corners, clamped so
that an empty intersection yields a zero-area rectangle. -/
def Rect.intersect (r s : Rect) : Rect :=
  let x0 := max r.x0 s.x0
  let y0 := max r.y0 s.y0
  let x1 := min r.x1 s.x1
  let y1 := min r.y1 s.y1
  ⟨x0, y0, max x1 x0, max y1 y0⟩

/-- glyph.rs 8-19 `GulzarGlyph`: the standard glyph representation with the
extra handy fields (i32/u32 fields modelled as ℤ/ℕ). -/
structure GulzarGlyph where
  codepoint : ℕ
  name : String
  paths : List BezPath
  cluster : ℕ
  x_advance : ℤ
  x_total_advance : ℤ
  y_advance : ℤ
  x_offset : ℤ
  y_offset : ℤ
  in_bari_ye : Bool

/-- glyph.rs 89-96 `bounding_box`: the bounding box of the positioned glyph,
from the font extents, the running-total x advance and the offsets; the i32
arithmetic happens before the `as f64` casts to `from_points`. -/
def GulzarGlyph.bounding_box (g : GulzarGlyph) (font : Font) : Rect :=
  let extents := font.get_glyph_extents g.codepoint
  let bl_x := extents.x_bearing + g.x_total_advance + g.x_offset
  let bl_y := extents.y_bearing + extents.height + g.y_offset
  let tr_x := bl_x + extents.width
  let tr_y := bl_y - extents.height
  Rect.from_points ⟨(bl_x : ℝ), (bl_y : ℝ)⟩ ⟨(tr_x : ℝ), (tr_y : ℝ)⟩

/-- glyph.rs 100-110 `positioned_paths`: the glyph's paths translated by
`(x_total_advance + x_offset, y_offset)`. -/
def GulzarGlyph.positioned_paths (g : GulzarGlyph) : List BezPath :=
  g.paths.map (translatePath ((g.x_total_advance + g.x_offset : ℤ) : ℝ) ((g.y_offset : ℤ) : ℝ))

/-- itertools `circular_tuple_windows` for pairs: consecutive elements with
the last wrapping back to the first. -/
def circularPairs {α : Type} (l : List α) : List (α × α) := l.zip (l.rotate 1)

/-- glyph.rs 140-163 `intersects`: flatten both paths to point lists and test
every circular edge pair for a line-segment intersection.  The kurbo
collaborators are passed explicitly: `flattenPts b tol` models the points
collected from `b.flatten(tol, ...)` (MoveTo/LineTo elements), and
`segInt e1 e2` models `!PathSeg::Line(e1).intersect_line(e2).is_empty()`. -/
def intersects (b1 b2 : BezPath) (scale : ℝ)
    (flattenPts : BezPath → ℝ → List Point) (segInt : Line → Line → Bool) : Bool :=
  let pts1 := flattenPts b1 scale
  let pts2 := flattenPts b2 scale
  (circularPairs pts1).any (fun e1 =>
    (circularPairs pts2).any (fun e2 => segInt ⟨e1.1, e1.2⟩ ⟨e2.1, e2.2⟩))

/-- glyph.rs 113-136 `collides`: if the positioned bounding boxes have
intersection area exactly `0.0`, return false immediately; otherwise test
every pair of positioned contours with `intersects` at tolerance
`50.0 * (x_scale as f64)`, short-circuiting on the first hit. -/
noncomputable def GulzarGlyph.collides (g other : GulzarGlyph) (font : Font)
    (flattenPts : BezPath → ℝ → List Point) (segInt : Line → Line → Bool) : Bool :=
  if ((g.bounding_box font).intersect (other.bounding_box font)).area = 0 then false
  else
    let sx := (font.get_scale).1
    (g.positioned_paths).any (fun p1 =>
      (other.positioned_paths).any (fun p2 =>
        intersects p1 p2 (50 * (sx : ℝ)) flattenPts segInt))

/-- Concrete horizontal line segment from (0,0) to (10,0). -/
def cSegA : PathSeg := .line ⟨⟨0, 0⟩, ⟨10, 0⟩⟩

/-- Concrete horizontal line segment from (10,0) to (20,0): collinear with
`cSegA`, touching it at (10,0). -/
def cSegB : PathSeg := .line ⟨⟨10, 0⟩, ⟨20, 0⟩⟩

/-- Concrete horizontal line segment from (0,1) to (10,1): one unit above
`cSegA`. -/
def cSegU : PathSeg := .line ⟨⟨0, 1⟩, ⟨10, 1⟩⟩

/-- Concrete horizontal line segment from (0,-1) to (10,-1): one unit below
`cSegA`, at the same sampled distance from it as `cSegU`. -/
def cSegD : PathSeg := .line ⟨⟨0, -1⟩, ⟨10, -1⟩⟩

/-- A concrete degenerate cubic segment (malformed input for the oracle). -/
def cCubic : PathSeg := .cubic ⟨⟨0, 0⟩, ⟨0, 0⟩, ⟨0, 0⟩, ⟨0, 0⟩⟩

/-- A concrete font whose every glyph has zero extents, scale (1, 1). -/
def cFont : Font := ⟨fun _ => ⟨0, 0, 0, 0⟩, (1, 1)⟩

/-- A concrete glyph positioned at the origin. -/
def cGlyphA : GulzarGlyph := ⟨0, "", [], 0, 0, 0, 0, 0, 0, false⟩

/-- A concrete glyph positioned 1000 units to the right. -/
def cGlyphB : GulzarGlyph := ⟨0, "", [], 0, 0, 1000, 0, 0, 0, false⟩

/-- On a linear order, one step of the Rust `min_by` fold is just `min`. -/
lemma minByStep_eq_min (a b : ℝ) : (if compare a b = Ordering.gt then b else a) = min a b := by
  rcases lt_trichotomy a b with h | h | h
  · rw [if_neg, min_eq_left h.le]
    simp [compare_gt_iff_gt, not_lt.mpr h.le]
  · subst h
    simp
  · rw [if_pos (compare_gt_iff_gt.mpr h), min_eq_right h.le]

/-- Rust `min_by` over a nonempty real list is the left fold of `min`. -/
lemma rustMinBy_cons_real (x : ℝ) (xs : List ℝ) :
    rustMinBy compare (x :: xs) = some (xs.foldl min x) := by
  show some (xs.foldl (fun acc y => if compare acc y = Ordering.gt then y else acc) x) =
    some (xs.foldl min x)
  congr 1
  apply List.foldl_ext
  intro a y _
  exact minByStep_eq_min a y

/-- Point distance is symmetric. -/
lemma Point.distance_comm (p q : Point) : p.distance q = q.distance p := by
  unfold Point.distance Point.distance_sq
  congr 1
  ring

/-- Distance between two points on one horizontal line. -/
lemma distance_horiz (a b y : ℝ) :
    Point.distance ⟨a, y⟩ ⟨b, y⟩ = |a - b| := by
  unfold Point.distance Point.distance_sq
  rw [show (a - b) ^ 2 + (y - y) ^ 2 = (a - b) ^ 2 by ring, Real.sqrt_sq_eq_abs]

/-- Distance between two points on one vertical line. -/
lemma distance_vert (x a b : ℝ) :
    Point.distance ⟨x, a⟩ ⟨x, b⟩ = |a - b| := by
  unfold Point.distance Point.distance_sq
  rw [show (x - x) ^ 2 + (a - b) ^ 2 = (a - b) ^ 2 by ring, Real.sqrt_sq_eq_abs]

/-- The coarse sampled distance is the minimum of the three index-matched
sample distances (parametric position 0 with 0, 0.5 with 0.5, 1 with 1). -/
lemma sampledDist_eq_min3 (s1 s2 : PathSeg) :
    sampledDist s1 s2 =
      min (min (Point.distance (s1.eval 0) (s2.eval 0))
        (Point.distance (s1.eval 0.5) (s2.eval 0.5)))
        (Point.distance (s1.eval 1) (s2.eval 1)) := by
  unfold sampledDist samples
  rw [show List.zipWith Point.distance [s1.eval 0, s1.eval 0.5, s1.eval 1]
        [s2.eval 0, s2.eval 0.5, s2.eval 1] =
      [Point.distance (s1.eval 0) (s2.eval 0), Point.distance (s1.eval 0.5) (s2.eval 0.5),
        Point.distance (s1.eval 1) (s2.eval 1)] from rfl,
    rustMinBy_cons_real]
  rfl

/-- The sampled distance from `cSegA` to the segment one unit above it. -/
lemma sampledDist_cSegA_cSegU : sampledDist cSegA cSegU = 1 := by
  rw [sampledDist_eq_min3]
  norm_num [cSegA, cSegU, PathSeg.eval, Line.eval, distance_vert]

/-- The sampled distance from `cSegA` to the segment one unit below it. -/
lemma sampledDist_cSegA_cSegD : sampledDist cSegA cSegD = 1 := by
  rw [sampledDist_eq_min3]
  norm_num [cSegA, cSegD, PathSeg.eval, Line.eval, distance_vert]

/-- The sampled (zip) distance between the two touching collinear segments
is 10: each index-matched sample pair is 10 apart. -/
lemma sampledDist_cSegA_cSegB : sampledDist cSegA cSegB = 10 := by
  rw [sampledDist_eq_min3]
  norm_num [cSegA, cSegB, PathSeg.eval, Line.eval, distance_horiz]

/-- The all-pairs sampled minimum between the two touching collinear
segments is 0 (the pair of samples at the shared point (10,0)). -/
lemma specAllPairs_cSegA_cSegB : specAllPairsSampledDist cSegA cSegB = 0 := by
  unfold specAllPairsSampledDist
  have h : (samples cSegA).flatMap (fun a => (samples cSegB).map (fun b => a.distance b)) =
      [Point.distance ⟨0, 0⟩ ⟨10, 0⟩, Point.distance ⟨0, 0⟩ ⟨15, 0⟩,
       Point.distance ⟨0, 0⟩ ⟨20, 0⟩, Point.distance ⟨5, 0⟩ ⟨10, 0⟩,
       Point.distance ⟨5, 0⟩ ⟨15, 0⟩, Point.distance ⟨5, 0⟩ ⟨20, 0⟩,
       Point.distance ⟨10, 0⟩ ⟨10, 0⟩, Point.distance ⟨10, 0⟩ ⟨15, 0⟩,
       Point.distance ⟨10, 0⟩ ⟨20, 0⟩] := by
    unfold samples
    norm_num [cSegA, cSegB, PathSeg.eval, Line.eval]
  rw [h, rustMinBy_cons_real]
  norm_num [distance_horiz, min_def]

/-- One `path_distance` comparison step always holds a candidate. -/
lemma pdStep_isSome (acc : Option ℝ) (d : ℝ) : (pdStep acc d).isSome := by
  cases acc with
  | none => rfl
  | some m =>
    show (if d < m then some d else some m).isSome = true
    split_ifs <;> rfl

/-- The inner contour loop of `path_distance` keeps a held candidate. -/
lemma pdInner_isSome_of (p1 : BezPath) (r : List BezPath) (acc : Option ℝ)
    (h : acc.isSome) :
    (r.foldl (fun acc2 p2 => pdStep acc2 (min_distance_bezpath p1 p2)) acc).isSome := by
  induction r generalizing acc with
  | nil => exact h
  | cons p2 r ih => exact ih _ (pdStep_isSome _ _)

/-- The outer contour loop of `path_distance` keeps a held candidate. -/
lemma pdOuter_isSome_of (l r : List BezPath) (acc : Option ℝ) (h : acc.isSome) :
    (l.foldl (fun acc p1 =>
      r.foldl (fun acc2 p2 => pdStep acc2 (min_distance_bezpath p1 p2)) acc) acc).isSome := by
  induction l generalizing acc with
  | nil => exact h
  | cons p1 l ih => exact ih _ (pdInner_isSome_of _ _ _ h)

/-- With an empty right contour set, the `path_distance` loops never touch
the accumulator. -/
lemma pdOuter_nil_right (l : List BezPath) (acc : Option ℝ) :
    (l.foldl (fun acc p1 =>
      ([] : List BezPath).foldl (fun acc2 p2 => pdStep acc2 (min_distance_bezpath p1 p2)) acc)
      acc) = acc := by
  induction l generalizing acc with
  | nil => rfl
  | cons p1 l ih => exact ih acc

/-- Loop invariant of the kerning solver: once the accumulated kern is at or
above the floor, every outcome of the remaining loop stays at or above it. -/
lemma kernLoopAux_ge (left : List BezPath) (target minp : ℝ) :
    ∀ (fuel : ℕ) (right : List BezPath) (kern mind : ℝ), minp ≤ kern →
      minp ≤ kernLoopAux left target minp fuel right kern mind := by
  intro fuel
  induction fuel with
  | zero => intro right kern mind h; exact h
  | succ n ih =>
    intro right kern mind h
    rw [kernLoopAux]
    split_ifs with hc
    · cases hpd : path_distance left right with
      | none => exact le_refl minp
      | some md =>
        dsimp only
        split_ifs with h2
        · exact le_refl minp
        · exact ih _ _ md (not_lt.mp h2)
    · exact h

/-- A NaN candidate never displaces a held finite candidate in the
`path_distance` comparison step, and a finite candidate stays finite. -/
lemma pdStepF_fin (m : ℚ) (d : F64) :
    ∃ r : ℚ, pdStepF (some (.fin m)) d = some (.fin r) := by
  cases d with
  | nan => exact ⟨m, rfl⟩
  | fin q =>
    show ∃ r : ℚ,
      (if F64.ltb (.fin q) (.fin m) then some (F64.fin q) else some (F64.fin m)) = some (.fin r)
    split_ifs with h
    · exact ⟨q, rfl⟩
    · exact ⟨m, rfl⟩

/-- The `path_distance` sweep started from a held finite candidate ends with
a finite candidate. -/
lemma pdFoldF_fin_of (l : List F64) :
    ∀ m : ℚ, ∃ r : ℚ, l.foldl pdStepF (some (.fin m)) = some (.fin r) := by
  induction l with
  | nil => intro m; exact ⟨m, rfl⟩
  | cons d l ih =>
    intro m
    obtain ⟨r, hr⟩ := pdStepF_fin m d
    rw [List.foldl_cons, hr]
    exact ih r

/-- One `min_by` fold step with the `unwrap_or(Less)` comparator keeps a
finite accumulator finite (a NaN next element never wins). -/
lemma minByStepF_fin (m : ℚ) (y : F64) :
    ∃ r : ℚ, (if F64.cmpOrLess (.fin m) y = Ordering.gt then y else (.fin m)) = .fin r := by
  cases y with
  | nan =>
    rw [if_neg]
    · exact ⟨m, rfl⟩
    · simp [F64.cmpOrLess, F64.pcmp]
  | fin q =>
    split_ifs with h
    · exact ⟨q, rfl⟩
    · exact ⟨m, rfl⟩

/-- The `min_by` sweep started from a finite first element ends finite. -/
lemma minByFoldF_fin_of (l : List F64) :
    ∀ m : ℚ, ∃ r : ℚ,
      l.foldl (fun acc y => if F64.cmpOrLess acc y = Ordering.gt then y else acc) (.fin m)
        = .fin r := by
  induction l with
  | nil => intro m; exact ⟨m, rfl⟩
  | cons y l ih =>
    intro m
    obtain ⟨r, hr⟩ := minByStepF_fin m y
    rw [List.foldl_cons, hr]
    exact ih r

/-- The best-candidate step of dist.rs 83-88 yields NaN exactly when the new
candidate is NaN: any candidate not strictly greater than the held best
(and NaN never compares strictly greater) replaces it. -/
lemma bestStepF_eq_nan (bp : Option F64) (d : F64) :
    bestStepF bp d = some F64.nan ↔ d = F64.nan := by
  cases bp with
  | none => simp [bestStepF]
  | some best =>
    cases d with
    | nan => cases best <;> simp [bestStepF, F64.gtb, F64.pcmp]
    | fin a =>
      cases best with
      | nan => simp [bestStepF, F64.gtb, F64.pcmp]
      | fin b =>
        simp only [bestStepF, F64.gtb, F64.pcmp]
        split_ifs <;> simp

/-- The modelled kurbo minimum segment distance is symmetric: the defining
set of pairwise point distances is invariant under swapping the segments. -/
lemma pathSegMinDist_comm (s1 s2 : PathSeg) : pathSegMinDist s1 s2 = pathSegMinDist s2 s1 := by
  unfold pathSegMinDist
  congr 1
  ext d
  constructor
  · rintro ⟨t, ht, u, hu, rfl⟩
    exact ⟨u, hu, t, ht, Point.distance_comm _ _⟩
  · rintro ⟨t, ht, u, hu, rfl⟩
    exact ⟨u, hu, t, ht, Point.distance_comm _ _⟩

/-- The completed-iteration count of the kerning loop never exceeds the
remaining iteration budget. -/
lemma kernLoopIters_le (left : List BezPath) (target minp : ℝ) :
    ∀ (fuel : ℕ) (right : List BezPath) (kern mind : ℝ),
      kernLoopIters left target minp fuel right kern mind ≤ fuel := by
  intro fuel
  induction fuel with
  | zero => intro right kern mind; exact Nat.le_refl 0
  | succ n ih =>
    intro right kern mind
    rw [kernLoopIters]
    split_ifs with hc
    · cases hpd : path_distance left right with
      | none => exact Nat.zero_le _
      | some md =>
        dsimp only
        split_ifs with h2
        · exact Nat.zero_le _
        · have := ih (right.map (translatePath (target - md) 0)) (kern + (target - md)) md
          omega
    · exact Nat.zero_le _

/-- C1 (counterexample): for the two touching collinear segments `cSegA` and
`cSegB`, the coarse sampled distance computed by the source (a `zip` of the
two three-point sample lists) is 10, while the minimum over all point pairs
drawn from the two sample sets is 0 (they share the sample point (10,0)), so
the claimed equality fails. -/
theorem C1_counterexample :
    sampledDist cSegA cSegB = 10 ∧ specAllPairsSampledDist cSegA cSegB = 0 ∧
      sampledDist cSegA cSegB ≠ specAllPairsSampledDist cSegA cSegB := by
  refine ⟨sampledDist_cSegA_cSegB, specAllPairs_cSegA_cSegB, ?_⟩
  rw [sampledDist_cSegA_cSegB, specAllPairs_cSegA_cSegB]
  norm_num

/-- C1 (amended): the coarse sampled distance used to select the best
segment pair equals the minimum over the three index-matched sample pairs
(parametric position 0 with 0, 0.5 with 0.5, 1 with 1), not over all nine
point pairs. -/
theorem C1_amended (s1 s2 : PathSeg) :
    sampledDist s1 s2 =
      min (min (Point.distance (s1.eval 0) (s2.eval 0))
        (Point.distance (s1.eval 0.5) (s2.eval 0.5)))
        (Point.distance (s1.eval 1) (s2.eval 1)) :=
  sampledDist_eq_min3 s1 s2

/-- C2 (counterexample): `cSegU` and `cSegD` are distinct segments at the
same sampled distance 1 from `cSegA`, yet the selection loop returns the
later pair `(cSegA, cSegD)`: an exactly-tied later pair replaces the current
best instead of being skipped. -/
theorem C2_counterexample :
    sampledDist cSegA cSegU = sampledDist cSegA cSegD ∧
      bestPair [cSegA] [cSegU, cSegD] = some (1, cSegA, cSegD) ∧ cSegU ≠ cSegD := by
  refine ⟨?_, ?_, ?_⟩
  · rw [sampledDist_cSegA_cSegU, sampledDist_cSegA_cSegD]
  · show bestPairStep (bestPairStep none (sampledDist cSegA cSegU) cSegA cSegU)
      (sampledDist cSegA cSegD) cSegA cSegD = some (1, cSegA, cSegD)
    rw [sampledDist_cSegA_cSegU, sampledDist_cSegA_cSegD]
    show (if (1 : ℝ) < 1 then some ((1 : ℝ), cSegA, cSegU) else some ((1 : ℝ), cSegA, cSegD))
      = some (1, cSegA, cSegD)
    rw [if_neg (lt_irrefl (1 : ℝ))]
  · intro h
    have h1 := congrArg (fun s => match s with | PathSeg.line l => l.p0.y | _ => 0) h
    norm_num [cSegU, cSegD] at h1

/-- C2 (amended): ties are broken by last-seen: a later segment pair whose
sampled distance is less than or equal to the current best replaces the
current best; only a strictly greater sampled distance leaves it in place. -/
theorem C2_amended (s1 s2a s2b : PathSeg)
    (h : sampledDist s1 s2b ≤ sampledDist s1 s2a) :
    bestPair [s1] [s2a, s2b] = some (sampledDist s1 s2b, s1, s2b) := by
  show (if sampledDist s1 s2a < sampledDist s1 s2b
      then some (sampledDist s1 s2a, s1, s2a) else some (sampledDist s1 s2b, s1, s2b))
    = some (sampledDist s1 s2b, s1, s2b)
  rw [if_neg (not_lt.mpr h)]

/-- C2 (witness): the amended tie-breaking statement at the concrete tied
pair: the later tied segment `cSegD` is selected. -/
theorem C2_witness :
    bestPair [cSegA] [cSegU, cSegD] = some (sampledDist cSegA cSegD, cSegA, cSegD) :=
  C2_amended cSegA cSegU cSegD
    (by rw [sampledDist_cSegA_cSegU, sampledDist_cSegA_cSegD])

/-- C3 (counterexample): at each of the three best-candidate comparison
sites of the distance pipeline, a NaN-bearing candidate is selected even
though a real-valued candidate (5) is present: the `min_by` comparator
treats an undefined ordering as Less and keeps a NaN accumulator, the
best-pair test replaces the best on a NaN comparison, and the aggregator
keeps a NaN first candidate. -/
theorem C3_counterexample :
    sampleMinF [F64.nan, F64.fin 5] = some F64.nan ∧
      bestFoldF [F64.fin 5, F64.nan] = some F64.nan ∧
      pdFoldF [F64.nan, F64.fin 5] = some F64.nan := by
  decide

/-- C3 (amended): the fallback ordering does not make NaN strictly worse
everywhere; what holds is positional: in the aggregator's fold and the
sampling `min_by`, a NaN candidate never displaces the held candidate, so a
real-valued first candidate yields a real-valued result; in the best-pair
comparison any candidate not strictly greater replaces the best, so the
result is NaN exactly when the last candidate is NaN. -/
theorem C3_amended :
    (∀ (q : ℚ) (l : List F64), ∃ r : ℚ, pdFoldF (F64.fin q :: l) = some (F64.fin r)) ∧
    (∀ (q : ℚ) (l : List F64), ∃ r : ℚ, sampleMinF (F64.fin q :: l) = some (F64.fin r)) ∧
    (∀ (l : List F64) (d : F64), bestFoldF (l ++ [d]) = some F64.nan ↔ d = F64.nan) := by
  refine ⟨?_, ?_, ?_⟩
  · intro q l
    exact pdFoldF_fin_of l q
  · intro q l
    obtain ⟨r, hr⟩ := minByFoldF_fin_of l q
    exact ⟨r, congrArg some hr⟩
  · intro l d
    rw [bestFoldF, List.foldl_append, List.foldl_cons, List.foldl_nil]
    exact bestStepF_eq_nan _ d

/-- C4: the aggregator `path_distance` returns absence exactly when at least
one of the two contour sets is empty (every pairwise distance is a total
real value, so no other case of unavailability arises); whenever both sides
are nonempty it holds a measured value, never collapsing absence to zero. -/
theorem C4_none_iff (left right : List BezPath) :
    path_distance left right = none ↔ left = [] ∨ right = [] := by
  constructor
  · intro h
    by_contra hc
    push_neg at hc
    obtain ⟨hl, hr⟩ := hc
    obtain ⟨p, l2, rfl⟩ := List.exists_cons_of_ne_nil hl
    obtain ⟨q, r2, rfl⟩ := List.exists_cons_of_ne_nil hr
    have hs : (path_distance (p :: l2) (q :: r2)).isSome := by
      unfold path_distance
      rw [List.foldl_cons]
      apply pdOuter_isSome_of
      rw [List.foldl_cons]
      apply pdInner_isSome_of
      exact pdStep_isSome none _
    rw [h] at hs
    exact absurd hs (by simp)
  · intro h
    rcases h with rfl | rfl
    · rfl
    · exact pdOuter_nil_right left none

/-- C5: the kerning loop returns exactly the floor `-1000 * scale_factor`
whenever, at any iteration still inside the loop guard, either the
aggregator reports no result or adding the iteration's delta drops the
accumulated kern strictly below the floor; in the clamp case no further
refinement happens. -/
theorem C5_bailout_clamp (left : List BezPath) (target scale : ℝ) (fuel : ℕ)
    (right : List BezPath) (kern mind : ℝ)
    (hcond : |target - mind| > 10)
    (hcase : path_distance left right = none ∨
      ∃ md, path_distance left right = some md ∧ kern + (target - md) < -1000 * scale) :
    kernLoopAux left target (-1000 * scale) (fuel + 1) right kern mind = -1000 * scale := by
  rw [kernLoopAux, if_pos hcond]
  rcases hcase with h | ⟨md, hmd, hlt⟩
  · rw [h]
  · rw [hmd]
    dsimp only
    rw [if_pos hlt]

/-- C5 (witness): with no contours to measure, the first loop iteration
bails out with the floor value. -/
theorem C5_witness :
    kernLoopAux [] 0 (-1000 * 1) 1 [] 0 (-9999) = -1000 * 1 :=
  C5_bailout_clamp [] 0 1 0 [] 0 (-9999) (by norm_num) (Or.inl rfl)

/-- C6: any segment-type pairing outside Line-Line, Line-Quad, Quad-Line and
Quad-Quad (i.e. any pairing involving a cubic segment) makes the oracle
dispatch emit the "Unusual configuration" diagnostic and return distance 0
instead of failing. -/
theorem C6_unusual (s1 s2 : PathSeg)
    (h : s1.isCubic = true ∨ s2.isCubic = true) :
    segPairRefine s1 s2 = (0, ["Unusual configuration"]) := by
  cases s1 with
  | cubic c => cases s2 <;> rfl
  | line l =>
    cases s2 with
    | cubic c => rfl
    | line l2 => simp [PathSeg.isCubic] at h
    | quad q2 => simp [PathSeg.isCubic] at h
  | quad q =>
    cases s2 with
    | cubic c => rfl
    | line l2 => simp [PathSeg.isCubic] at h
    | quad q2 => simp [PathSeg.isCubic] at h

/-- C6 (witness): the diagnostic fallback at a concrete cubic segment. -/
theorem C6_witness :
    segPairRefine cCubic (PathSeg.line ⟨⟨0, 0⟩, ⟨0, 0⟩⟩) = (0, ["Unusual configuration"]) :=
  C6_unusual cCubic (PathSeg.line ⟨⟨0, 0⟩, ⟨0, 0⟩⟩) (Or.inl rfl)

/-- C7: `line_line_dist` is symmetric under argument swap (the four squared
distances permute and their minimum is unchanged); the Quad-Quad branch of
the oracle dispatch is symmetric (the modelled kurbo minimum distance is);
and both mixed pairings are dispatched to the single `line_curve_dist`
estimator with the arguments normalized to (line, quad) order. -/
theorem C7_symmetry :
    (∀ l1 l2 : Line, line_line_dist l1 l2 = line_line_dist l2 l1) ∧
    (∀ q1 q2 : QuadBez,
      segPairRefine (.quad q1) (.quad q2) = segPairRefine (.quad q2) (.quad q1)) ∧
    (∀ (l : Line) (c : QuadBez),
      segPairRefine (.quad c) (.line l) = (line_curve_dist l c, []) ∧
      segPairRefine (.line l) (.quad c) = (line_curve_dist l c, [])) := by
  refine ⟨?_, ?_, ?_⟩
  · intro l1 l2
    unfold line_line_dist
    dsimp only
    congr 1
    rw [min_assoc, min_comm, ← min_assoc]
  · intro q1 q2
    show (pathSegMinDist (.quad q1) (.quad q2), ([] : List String))
      = (pathSegMinDist (.quad q2) (.quad q1), ([] : List String))
    rw [pathSegMinDist_comm]
  · intro l c
    exact ⟨rfl, rfl⟩

/-- C8: whenever the positioned bounding boxes of the two glyphs intersect
with area exactly 0, `collides` returns false, for every choice of contour
geometry and of the flattening and segment-intersection collaborators (the
contours are never examined). -/
theorem C8_bbox_reject (g other : GulzarGlyph) (font : Font)
    (flattenPts : BezPath → ℝ → List Point) (segInt : Line → Line → Bool)
    (h : ((g.bounding_box font).intersect (other.bounding_box font)).area = 0) :
    g.collides other font flattenPts segInt = false := by
  unfold GulzarGlyph.collides
  rw [if_pos h]

/-- C8 (witness): two concrete glyphs 1000 units apart with zero-size
extents have zero bounding-box intersection area and do not collide. -/
theorem C8_witness :
    ((cGlyphA.bounding_box cFont).intersect (cGlyphB.bounding_box cFont)).area = 0 ∧
      cGlyphA.collides cGlyphB cFont (fun _ _ => []) (fun _ _ => false) = false := by
  have h : ((cGlyphA.bounding_box cFont).intersect (cGlyphB.bounding_box cFont)).area = 0 := by
    norm_num [cGlyphA, cGlyphB, cFont, GulzarGlyph.bounding_box, Font.get_glyph_extents,
      Rect.from_points, Rect.intersect, Rect.area, Rect.width, Rect.height, min_def, max_def]
  exact ⟨h, C8_bbox_reject cGlyphA cGlyphB cFont (fun _ _ => []) (fun _ _ => false) h⟩

/-- C9: the kerning solver always terminates: the loop completes at most 10
iterations from its initial state (the static cap), and whenever the guard
quantity satisfies |target - measured| <= 10 the loop exits immediately,
returning the accumulated kern. -/
theorem C9_termination (left right : List BezPath) (target minp kern mind : ℝ) :
    kernLoopIters left target minp 10 right kern mind ≤ 10 ∧
    (∀ (fuel : ℕ) (right2 : List BezPath) (kern2 mind2 : ℝ), |target - mind2| ≤ 10 →
      kernLoopAux left target minp (fuel + 1) right2 kern2 mind2 = kern2) := by
  refine ⟨kernLoopIters_le left target minp 10 right kern mind, ?_⟩
  intro fuel right2 kern2 mind2 h
  rw [kernLoopAux, if_neg (not_lt.mpr h)]

/-- C9 (witness): the iteration bound and the early convergence exit at
concrete inputs (target 0, measured 5: the gap 5 is within 10 units). -/
theorem C9_witness :
    kernLoopIters [] 0 0 10 [] 0 (-9999) ≤ 10 ∧ kernLoopAux [] 0 0 1 [] 3 5 = 3 :=
  ⟨(C9_termination [] [] 0 0 0 (-9999)).1,
    (C9_termination [] [] 0 0 0 (-9999)).2 0 [] 3 5 (by norm_num)⟩

/-- C10: for every input with a nonnegative scale factor, the kerning solver
never returns a value strictly below the floor `-1000 * scale_factor`: every
return path (no-result bailout, hard clamp, convergence or iteration-cap
exit) stays at or above it. -/
theorem C10_floor (left right : List BezPath) (target max_tuck scale : ℝ)
    (h : 0 ≤ scale) :
    -1000 * scale ≤ _determine_kern left right target max_tuck scale := by
  unfold _determine_kern
  apply kernLoopAux_ge
  linarith

/-- C10 (witness): the floor at a concrete input with scale factor 1. -/
theorem C10_witness : -1000 * 1 ≤ _determine_kern [] [] 0 0 1 :=
  C10_floor [] [] 0 0 1 (by norm_num)

end Gulzar
